import Mathlib

/-!
Verification development for the BIS-Scraper repository.

The Python sources are shallowly embedded:
  * text is `List Char`; Python `str` methods and the regular-expression
    searches used by the scraper are translated to executable functions;
  * `BISScraper.parse_bbl` / the BBL reconstruction in `save_batch` form the
    identifier codec;
  * `BISScraper.fetch_page` (with `is_queue_page` and the session-rotation
    check) is a function over a stream of responses, returning the result
    together with the queue-backoff sleeps, the session rotations and the
    final consecutive-queue counter;
  * `BISScraper.extract_address_info` / `parse_property_profile` /
    `get_property_profile` act on a document abstraction holding the cell
    texts that BeautifulSoup would select (`td.maininfo` cells, the
    `tr[valign=top]` rows of `td.content` cells, and the generic table rows);
  * `BISScraper.process_bbls_from_csv` is a small-step runner whose trace
    lists every intermediate state (points between the buffer append, the
    progress-log append and the batch flush), so invariants can be checked
    at every point of a run, including failure points;
  * `process_batches.py`'s per-segment retry loop is an event-trace function.

Wall-clock timing, random jitter, logging output and the mirrored
`property_data.txt` diagnostics file are not modelled: they do not affect
the tracked state.
-/

/-- Ten-character BBL used by the concrete test cases. -/
def cBBL1 : List Char := "0012340001".data

/-- Second ten-character BBL used by the concrete test cases. -/
def cBBL2 : List Char := "0012340002".data

/-! ## Python text primitives -/

/-- Characters matched by Python's `\s` (and stripped by `str.strip()`):
space, tab, newline, carriage return, vertical tab, form feed and the
non-breaking space `\xa0` that `clean_text` additionally replaces. -/
def isWS (c : Char) : Bool :=
  c = ' ' || c = '\t' || c = '\n' || c = '\r' ||
  c = Char.ofNat 11 || c = Char.ofNat 12 || c = Char.ofNat 160

/-- One pass of `re.sub(r'\s+', ' ', text)`: collapse every whitespace run
to a single space.  The Boolean argument records whether the previous
character was part of a whitespace run. -/
def collapseWSAux : List Char → Bool → List Char
  | [], _ => []
  | c :: rest, prev =>
    if isWS c then
      if prev then collapseWSAux rest true else ' ' :: collapseWSAux rest true
    else c :: collapseWSAux rest false

/-- `str.strip()` on the collapsed text: drop whitespace from both ends. -/
def pyStrip (l : List Char) : List Char :=
  ((l.dropWhile isWS).reverse.dropWhile isWS).reverse

/-- `BISScraper.clean_text`: collapse whitespace runs, then strip.  (The
final `replace('\xa0', ' ')` of the source is a no-op at this point because
`\xa0` is already matched by `\s` and collapsed away.) -/
def clean_text (l : List Char) : List Char :=
  pyStrip (collapseWSAux l false)

/-- Substring test, Python's `needle in haystack`. -/
def containsSub (pat : List Char) : List Char → Bool
  | [] => pat.isEmpty
  | c :: rest => pat.isPrefixOf (c :: rest) || containsSub pat rest

/-! ## Identifier codec (`BISScraper.parse_bbl`, re-encoding in `save_batch`) -/

/-- Decoded BBL components: 1-digit borough, 5-digit block, 4-digit lot. -/
structure BBLParts where
  borough : List Char
  block : List Char
  lot : List Char
deriving DecidableEq, Repr

/-- The message of the `ValueError` raised by `parse_bbl`. -/
def bblLengthError : String := "BBL must be 10 digits long"

/-- `BISScraper.parse_bbl`: reject anything that is not exactly 10
characters, otherwise slice `bbl[0]`, `bbl[1:6]`, `bbl[6:10]`. -/
def parse_bbl (bbl : List Char) : Except String BBLParts :=
  if bbl.length = 10 then
    Except.ok ⟨bbl.take 1, (bbl.drop 1).take 5, (bbl.drop 6).take 4⟩
  else Except.error bblLengthError

/-- Python `str.zfill` for non-negative digit strings: left-pad with zeros
to width `w`. -/
def zfill (w : Nat) (l : List Char) : List Char :=
  List.replicate (w - l.length) '0' ++ l

/-- The BBL reconstruction of `BISScraper.save_batch`:
`Borough Code + Block.zfill(5) + Lot.zfill(4)`. -/
def encode_bbl (p : BBLParts) : List Char :=
  p.borough ++ zfill 5 p.block ++ zfill 4 p.lot

/-- Claim C9: for every string of exactly 10 decimal digits, decoding into
the three fixed-width segments and re-encoding by zero-padded concatenation
yields the original string: `encode(decode(s)) = s`. -/
theorem encode_decode_roundtrip (bbl : List Char) (h10 : bbl.length = 10)
    (hdig : bbl.all Char.isDigit = true) :
    (parse_bbl bbl).map encode_bbl = Except.ok bbl := by
  have hblock : ((bbl.drop 1).take 5).length = 5 := by
    simp [List.length_take, List.length_drop, h10]
  have hlot : ((bbl.drop 6).take 4).length = 4 := by
    simp [List.length_take, List.length_drop, h10]
  have hb : parse_bbl bbl =
      Except.ok ⟨bbl.take 1, (bbl.drop 1).take 5, (bbl.drop 6).take 4⟩ := by
    simp [parse_bbl, h10]
  rw [hb]
  show Except.ok (encode_bbl ⟨bbl.take 1, (bbl.drop 1).take 5, (bbl.drop 6).take 4⟩)
      = Except.ok bbl
  congr 1
  simp only [encode_bbl, zfill, hblock, hlot, Nat.sub_self,
    List.replicate_zero, List.nil_append]
  have h1 : bbl.take 1 ++ (bbl.drop 1).take 5 = bbl.take 6 := by
    have := (List.take_add bbl 1 5).symm
    simpa using this
  have h2 : bbl.take 6 ++ (bbl.drop 6).take 4 = bbl.take 10 := by
    have := (List.take_add bbl 6 4).symm
    simpa using this
  calc bbl.take 1 ++ (bbl.drop 1).take 5 ++ (bbl.drop 6).take 4
      = bbl.take 6 ++ (bbl.drop 6).take 4 := by rw [h1]
    _ = bbl.take 10 := h2
    _ = bbl := by rw [← h10, List.take_length]

/-- Witness for C9 at the concrete identifier 0012340001. -/
theorem encode_decode_roundtrip_witness :
    (parse_bbl cBBL1).map encode_bbl = Except.ok cBBL1 :=
  encode_decode_roundtrip cBBL1 (by decide) (by decide)

/-! ## Rate-limited transport (`BISScraper.is_queue_page`, `fetch_page`)

`fetch_page` is embedded as a function of the stream of responses the
server would return (one per attempt).  Alongside the result it returns the
queue-backoff sleeps it performed, the number of session rotations, the
final consecutive-queue counter and the number of attempts made.  The
inter-request pacing of `_wait_between_requests` (wall clock plus random
jitter) does not affect any tracked value and is not modelled. -/

/-- First marker checked by `is_queue_page`. -/
def queueMarkerA : List Char := "Just a moment".data

/-- Second marker checked by `is_queue_page`. -/
def queueMarkerB : List Char := "Your request is being processed".data

/-- `BISScraper.is_queue_page`: both marker texts occur in the body. -/
def is_queue_page (html : List Char) : Bool :=
  containsSub queueMarkerA html && containsSub queueMarkerB html

/-- One server response: a network-level error (`requests.RequestException`
raised by `session.get` or `raise_for_status`) or a successful body. -/
inductive Response where
  | net
  | page (body : List Char)
deriving DecidableEq

/-- Whether a response is a successful fetch of a queue/hold page. -/
def isQueueResp : Response → Bool
  | Response.net => false
  | Response.page b => is_queue_page b

/-- Observable outcome of one `fetch_page` call. -/
structure FetchResult where
  result : Option (List Char)
  sleeps : List ℚ
  rotations : Nat
  consec : Nat
  attempts : Nat
deriving DecidableEq

/-- The retry loop of `BISScraper.fetch_page`.  `fuel` is the number of
attempts left, `n` the index of the next response, `c` the current
`consecutive_queues` counter, `p` the scraper's `processed_count` (which
does not change during one call).  Each attempt first checks
`processed_count % session_rotation_interval == 0` and rotates the session
if so; a queue page increments the counter and sleeps
`retry_delay * (1 + consecutive_queues * 0.5)`; a non-queue page resets the
counter to 0 and returns the body; a network error returns `None` at once
(the exception skips the rest of the loop); exhausted fuel returns `None`. -/
def fetchGo (rdelay : ℚ) (p : Nat) (resp : Nat → Response) :
    Nat → Nat → Nat → FetchResult
  | 0, _, c => ⟨none, [], 0, c, 0⟩
  | fuel + 1, n, c =>
    match resp n with
    | Response.net => ⟨none, [], if p % 50 = 0 then 1 else 0, c, 1⟩
    | Response.page body =>
      if is_queue_page body then
        ⟨(fetchGo rdelay p resp fuel (n + 1) (c + 1)).result,
          rdelay * (1 + ((c + 1 : Nat) : ℚ) * (1 / 2)) ::
            (fetchGo rdelay p resp fuel (n + 1) (c + 1)).sleeps,
          (if p % 50 = 0 then 1 else 0) +
            (fetchGo rdelay p resp fuel (n + 1) (c + 1)).rotations,
          (fetchGo rdelay p resp fuel (n + 1) (c + 1)).consec,
          (fetchGo rdelay p resp fuel (n + 1) (c + 1)).attempts + 1⟩
      else ⟨some body, [], if p % 50 = 0 then 1 else 0, 0, 1⟩

/-- `BISScraper.fetch_page` with explicit `max_retries` and `retry_delay`
(their source defaults are 5 and 6). -/
def fetch_page (resp : Nat → Response) (p c0 max_retries : Nat)
    (rdelay : ℚ) : FetchResult :=
  fetchGo rdelay p resp max_retries 0 c0

/-- The queue-backoff sleep performed after the j-th consecutive queue hit
of a call that started with counter `c`. -/
def queueSleep (rdelay : ℚ) (c j : Nat) : ℚ :=
  rdelay * (1 + ((c + j + 1 : Nat) : ℚ) * (1 / 2))

theorem queueSleep_range_succ (rdelay : ℚ) (c k : Nat) :
    (List.range (k + 1)).map (queueSleep rdelay c) =
      rdelay * (1 + ((c + 1 : Nat) : ℚ) * (1 / 2)) ::
        (List.range k).map (queueSleep rdelay (c + 1)) := by
  rw [List.range_succ_eq_map, List.map_cons, List.map_map]
  have hhead : queueSleep rdelay c 0 =
      rdelay * (1 + ((c + 1 : Nat) : ℚ) * (1 / 2)) := by
    simp [queueSleep]
  have htail : queueSleep rdelay c ∘ Nat.succ = queueSleep rdelay (c + 1) := by
    funext j
    simp only [Function.comp_apply, queueSleep]
    push_cast
    ring
  rw [hhead, htail]

theorem fetchGo_all_queue (rdelay : ℚ) (p : Nat) (resp : Nat → Response) :
    ∀ fuel n c, (∀ j, j < fuel → isQueueResp (resp (n + j)) = true) →
    fetchGo rdelay p resp fuel n c =
      ⟨none, (List.range fuel).map (queueSleep rdelay c),
        if p % 50 = 0 then fuel else 0, c + fuel, fuel⟩ := by
  intro fuel
  induction fuel with
  | zero => intro n c _; simp [fetchGo]
  | succ fuel ih =>
    intro n c h
    have h0 : isQueueResp (resp n) = true := by
      have := h 0 (Nat.succ_pos fuel); simpa using this
    cases hr : resp n with
    | net => rw [hr] at h0; simp [isQueueResp] at h0
    | page body =>
      rw [hr] at h0
      have hq : is_queue_page body = true := h0
      have ih' := ih (n + 1) (c + 1) (by
        intro j hj
        have := h (j + 1) (by omega)
        have harg : n + (j + 1) = n + 1 + j := by omega
        rwa [harg] at this)
      simp only [fetchGo, hr, hq, if_true, ih']
      simp only [FetchResult.mk.injEq]
      refine ⟨by trivial, ?_, ?_, by omega, by trivial⟩
      · rw [queueSleep_range_succ]
      · split <;> omega


theorem fetchGo_success (rdelay : ℚ) (p : Nat) (resp : Nat → Response) :
    ∀ k fuel n c body, k < fuel →
    (∀ j, j < k → isQueueResp (resp (n + j)) = true) →
    resp (n + k) = Response.page body → is_queue_page body = false →
    fetchGo rdelay p resp fuel n c =
      ⟨some body, (List.range k).map (queueSleep rdelay c),
        if p % 50 = 0 then k + 1 else 0, 0, k + 1⟩ := by
  intro k
  induction k with
  | zero =>
    intro fuel n c body hk _ hresp hnq
    obtain ⟨fuel', rfl⟩ : ∃ f, fuel = f + 1 := ⟨fuel - 1, by omega⟩
    have hresp' : resp n = Response.page body := by simpa using hresp
    simp [fetchGo, hresp', hnq]
  | succ k ih =>
    intro fuel n c body hk hq hresp hnq
    obtain ⟨fuel', rfl⟩ : ∃ f, fuel = f + 1 := ⟨fuel - 1, by omega⟩
    have h0 : isQueueResp (resp n) = true := by
      simpa using hq 0 (Nat.succ_pos k)
    cases hr : resp n with
    | net => rw [hr] at h0; simp [isQueueResp] at h0
    | page b =>
      rw [hr] at h0
      have hqb : is_queue_page b = true := h0
      have ih' := ih fuel' (n + 1) (c + 1) body (by omega)
        (fun j hj => by
          have := hq (j + 1) (by omega)
          have harg : n + (j + 1) = n + 1 + j := by omega
          rwa [harg] at this)
        (by
          have harg : n + (k + 1) = n + 1 + k := by omega
          rwa [harg] at hresp)
        hnq
      simp only [fetchGo, hr, hqb, if_true, ih']
      simp only [FetchResult.mk.injEq]
      refine ⟨by trivial, ?_, ?_, by trivial, by trivial⟩
      · rw [queueSleep_range_succ]
      · split <;> omega

theorem fetchGo_attempts_le (rdelay : ℚ) (p : Nat) (resp : Nat → Response) :
    ∀ fuel n c, (fetchGo rdelay p resp fuel n c).attempts ≤ fuel := by
  intro fuel
  induction fuel with
  | zero => intro n c; simp [fetchGo]
  | succ fuel ih =>
    intro n c
    cases hr : resp n with
    | net =>
      simp only [fetchGo, hr]
      show 1 ≤ fuel + 1
      omega
    | page body =>
      by_cases hq : is_queue_page body = true
      · simp only [fetchGo, hr, hq, if_true]
        have := ih (n + 1) (c + 1)
        show (fetchGo rdelay p resp fuel (n + 1) (c + 1)).attempts + 1 ≤ fuel + 1
        omega
      · simp only [fetchGo, hr]
        rw [if_neg (by simpa using hq)]
        show 1 ≤ fuel + 1
        omega

theorem fetchGo_rotations_eq (rdelay : ℚ) (p : Nat) (resp : Nat → Response) :
    ∀ fuel n c, (fetchGo rdelay p resp fuel n c).rotations =
      if p % 50 = 0 then (fetchGo rdelay p resp fuel n c).attempts else 0 := by
  intro fuel
  induction fuel with
  | zero => intro n c; simp [fetchGo]
  | succ fuel ih =>
    intro n c
    cases hr : resp n with
    | net =>
      simp only [fetchGo, hr]
    | page body =>
      by_cases hq : is_queue_page body = true
      · simp only [fetchGo, hr, hq, if_true]
        rw [ih (n + 1) (c + 1)]
        by_cases hp : p % 50 = 0 <;> simp [hp] <;> try omega
      · simp only [fetchGo, hr]
        rw [if_neg (by simpa using hq)]

/-- Claim C6: `fetch_page` makes at most 5 attempts (the `max_retries`
default); when every attempt up to the bound hits a queue/hold page it
increments the consecutive-queue counter each time, sleeps
`retry_delay * (1 + consecutive_queues * 0.5)` after each hit, and finally
returns the `None` sentinel without raising; when attempt `k` is the first
non-queue successful response it returns the document, resets the counter
to 0, and has slept exactly the `k` linearly growing queue delays. -/
theorem fetch_page_queue_retry (resp : Nat → Response) (p c0 : Nat) (rdelay : ℚ) :
    (fetch_page resp p c0 5 rdelay).attempts ≤ 5 ∧
    ((∀ j, j < 5 → isQueueResp (resp j) = true) →
      (fetch_page resp p c0 5 rdelay).result = none ∧
      (fetch_page resp p c0 5 rdelay).consec = c0 + 5 ∧
      (fetch_page resp p c0 5 rdelay).attempts = 5 ∧
      (fetch_page resp p c0 5 rdelay).sleeps =
        (List.range 5).map (queueSleep rdelay c0)) ∧
    (∀ k body, k < 5 → (∀ j, j < k → isQueueResp (resp j) = true) →
      resp k = Response.page body → is_queue_page body = false →
      (fetch_page resp p c0 5 rdelay).result = some body ∧
      (fetch_page resp p c0 5 rdelay).consec = 0 ∧
      (fetch_page resp p c0 5 rdelay).attempts = k + 1 ∧
      (fetch_page resp p c0 5 rdelay).sleeps =
        (List.range k).map (queueSleep rdelay c0)) := by
  refine ⟨fetchGo_attempts_le rdelay p resp 5 0 c0, ?_, ?_⟩
  · intro hall
    have h := fetchGo_all_queue rdelay p resp 5 0 c0 (by
      intro j hj
      simpa using hall j hj)
    rw [fetch_page, h]
    exact ⟨rfl, rfl, rfl, rfl⟩
  · intro k body hk hq hresp hnq
    have h := fetchGo_success rdelay p resp k 5 0 c0 body hk (by
      intro j hj
      simpa using hq j hj) (by simpa using hresp) hnq
    rw [fetch_page, h]
    exact ⟨rfl, rfl, rfl, rfl⟩

/-- A queue/hold body containing both marker texts. -/
def cQueueBody : List Char :=
  "Just a moment ... Your request is being processed".data

/-- A successful body containing neither marker. -/
def cOkBody : List Char := "Property Profile Overview".data

/-- A response stream that always serves the queue page. -/
def cRespQueue : Nat → Response := fun _ => Response.page cQueueBody

/-- A response stream: queue page first, then a successful page. -/
def cRespQueueThenOk : Nat → Response := fun n =>
  if n = 0 then Response.page cQueueBody else Response.page cOkBody

/-- Witness for C6: with every response a queue page, `fetch_page` makes
all 5 attempts and returns the `None` sentinel. -/
theorem fetch_page_queue_retry_witness :
    (fetch_page cRespQueue 1 0 5 6).result = none ∧
    (fetch_page cRespQueue 1 0 5 6).attempts = 5 :=
  ⟨((fetch_page_queue_retry cRespQueue 1 0 6).2.1
      (fun _ _ => (by decide : isQueueResp (Response.page cQueueBody) = true))).1,
    ((fetch_page_queue_retry cRespQueue 1 0 6).2.1
      (fun _ _ => (by decide : isQueueResp (Response.page cQueueBody) = true))).2.2.1⟩

/-- Claim C8, counterexample: with `processed_count = 0` (which holds for
every request until the first success is recorded), a single `fetch_page`
call making 2 requests rotates the session twice — not "exactly once every
50 requests": in 2 requests at most one rotation would be allowed. -/
theorem session_rotation_counterexample :
    (fetch_page cRespQueueThenOk 0 0 5 6).attempts = 2 ∧
    (fetch_page cRespQueueThenOk 0 0 5 6).rotations = 2 ∧
    ¬(fetch_page cRespQueueThenOk 0 0 5 6).rotations ≤ 1 := by
  refine ⟨?_, ?_, ?_⟩ <;> decide

/-- Claim C8, amended: the rotation condition is
`processed_count % session_rotation_interval == 0`, checked before every
request, where `processed_count` counts successfully processed identifiers
(not requests) and is constant during one `fetch_page` call.  Hence while
that count is a multiple of 50 every single attempt rotates the session,
and otherwise no attempt does; there is no per-request rotation counter. -/
theorem session_rotation_amended (resp : Nat → Response) (p c0 mr : Nat)
    (rdelay : ℚ) :
    (fetch_page resp p c0 mr rdelay).rotations =
      if p % 50 = 0 then (fetch_page resp p c0 mr rdelay).attempts else 0 :=
  fetchGo_rotations_eq rdelay p resp mr 0 c0

/-! ## Record extractor (`BISScraper.extract_address_info`,
`parse_property_profile`, `get_property_profile`)

Documents are embedded as the cell texts BeautifulSoup would select:
`maininfoCells` are the texts of the `td.maininfo` cells in order,
`contentRows` the `td.content` cells (with their `colspan` markers) of each
`tr[valign=top]` row, and `tableRows` the `td` texts of every table row
visited by the generic field sweep. -/

theorem dropWhile_length_le (p : α → Bool) (l : List α) :
    (l.dropWhile p).length ≤ l.length := by
  induction l with
  | nil => simp
  | cons a l ih =>
    rw [List.dropWhile_cons]
    by_cases h : p a = true
    · simp only [h, if_true]
      exact Nat.le_trans ih (Nat.le_succ _)
    · simp [h]

/-- `re.sub(r'\s*-\s*', '-', text)`: collapse whitespace around hyphens. -/
def subHyphen : List Char → List Char
  | [] => []
  | '-' :: rest => '-' :: subHyphen (rest.dropWhile isWS)
  | c :: rest =>
    if isWS c then
      match hrw : rest.dropWhile isWS with
      | '-' :: rest2 => '-' :: subHyphen (rest2.dropWhile isWS)
      | _ => c :: subHyphen rest
    else c :: subHyphen rest
termination_by l => l.length
decreasing_by
  · simpa using Nat.lt_succ_of_le (dropWhile_length_le isWS rest)
  · have h1 : (rest.dropWhile isWS).length ≤ rest.length := dropWhile_length_le isWS rest
    rw [hrw] at h1
    have h2 : (rest2.dropWhile isWS).length ≤ rest2.length := dropWhile_length_le isWS rest2
    simp only [List.length_cons] at h1 ⊢
    omega
  · simp
  · simp

/-- A record is an insertion-ordered association list mirroring a Python
dict: `setField` overwrites in place or appends. -/
abbrev Rec : Type := List (List Char × List Char)

/-- Python `data[k] = v`. -/
def setField (d : Rec) (k v : List Char) : Rec :=
  match d with
  | [] => [(k, v)]
  | (k', v') :: rest =>
    if k' = k then (k', v) :: rest else (k', v') :: setField rest k v

/-- Python `data.get(k)` / `data[k]`. -/
def getField (d : Rec) (k : List Char) : Option (List Char) :=
  match d with
  | [] => none
  | (k', v) :: rest => if k' = k then some v else getField rest k

theorem getField_setField_same (d : Rec) (k v : List Char) :
    getField (setField d k v) k = some v := by
  induction d with
  | nil => simp [setField, getField]
  | cons p rest ih =>
    obtain ⟨k', v'⟩ := p
    by_cases h : k' = k
    · simp [setField, getField, h]
    · simp [setField, getField, h, ih]

theorem getField_setField_other (d : Rec) (k k' v : List Char) (hne : k' ≠ k) :
    getField (setField d k' v) k = getField d k := by
  induction d with
  | nil => simp [setField, getField, hne]
  | cons p rest ih =>
    obtain ⟨k'', v''⟩ := p
    by_cases h : k'' = k'
    · subst h
      simp [setField, getField, hne]
    · simp only [setField, if_neg h]
      by_cases h2 : k'' = k
      · simp only [getField, if_pos h2]
      · simp only [getField, if_neg h2, ih]

theorem setField_ne_nil (d : Rec) (k v : List Char) : setField d k v ≠ [] := by
  cases d with
  | nil => simp [setField]
  | cons p rest =>
    obtain ⟨k', v'⟩ := p
    by_cases h : k' = k <;> simp [setField, h]

/-- The five borough names, in the order of the source's regex alternation
and its `any(...)` membership test. -/
def boroughNames : List (List Char) :=
  ["MANHATTAN".data, "BROOKLYN".data, "QUEENS".data, "BRONX".data,
    "STATEN ISLAND".data]

/-- The `BIN#` marker. -/
def binMarker : List Char := "BIN#".data

/-- `re.search(r'BIN#\s*(\d+)', text)`: leftmost position where `BIN#` is
followed (after optional whitespace) by at least one digit; the captured
group is the maximal digit run. -/
def binSearch : List Char → Option (List Char)
  | [] => none
  | c :: rest =>
    if binMarker.isPrefixOf (c :: rest) then
      let ds := (((c :: rest).drop 4).dropWhile isWS).takeWhile Char.isDigit
      if ds.isEmpty then binSearch rest else some ds
    else binSearch rest

/-- `re.search(r'(MANHATTAN|BROOKLYN|QUEENS|BRONX|STATEN ISLAND)', text)`:
leftmost match, trying the alternatives in order at each position. -/
def boroughSearch : List Char → Option (List Char)
  | [] => none
  | c :: rest =>
    match boroughNames.find? (fun b => b.isPrefixOf (c :: rest)) with
    | some b => some b
    | none => boroughSearch rest

/-- `re.search(r'(\d{5})', text)`: leftmost run of 5 consecutive digits. -/
def zipSearch : List Char → Option (List Char)
  | [] => none
  | c :: rest =>
    let five := (c :: rest).take 5
    if five.length = 5 && five.all Char.isDigit then some five
    else zipSearch rest

/-- The `td.maininfo` classification loop of `extract_address_info`: a cell
containing `BIN#` sets `BIN` (when the regex matches), a cell containing a
borough name sets `Borough` and `ZIP Code` (each when its regex matches),
and any other non-empty cell sets `Primary Address`.  Every branch assigns
with plain dict assignment, overwriting previous values. -/
def maininfoStep (d : Rec) (raw : List Char) : Rec :=
  let text := clean_text raw
  if containsSub binMarker text then
    match binSearch text with
    | some ds => setField d ("BIN".data) ds
    | none => d
  else if boroughNames.any (fun b => containsSub b text) then
    let d1 := match boroughSearch text with
      | some b => setField d ("Borough".data) b
      | none => d
    match zipSearch text with
    | some z => setField d1 ("ZIP Code".data) z
    | none => d1
  else if text ≠ [] &&
      !((binMarker :: boroughNames).any (fun x => containsSub x text)) then
    setField d ("Primary Address".data) text
  else d

/-- One `td.content` cell of a secondary-address row, with the marker for
`colspan == "4"`. -/
structure Cell where
  text : List Char
  colspan4 : Bool
deriving DecidableEq

/-- Street-name denylist of the secondary-address loop. -/
def streetDenylist : List (List Char) :=
  ["View".data, "Browse".data, "HPD".data, "Number".data,
    "This property".data, "OR Enter Action Type".data,
    "OR Select from List".data]

/-- One iteration of the secondary-address loop: rows with at least two
cells, skipping cross-street rows (`colspan == "4"`), requiring non-empty
street and numbers, applying the denylist plus the trailing-colon and
`Select` checks, normalising hyphens and appending `"numbers street"` if
not already present. -/
def secondaryStep (acc : List (List Char)) (cells : List Cell) :
    List (List Char) :=
  match cells with
  | c0 :: c1 :: _ =>
    if cells.any (fun c => c.colspan4) then acc
    else
      let street := clean_text c0.text
      let nums := clean_text c1.text
      if street ≠ [] && nums ≠ [] &&
          !(streetDenylist.any (fun x => containsSub x street)) &&
          !(street.getLast? = some ':') &&
          !(("Select".data).isPrefixOf street) then
        let full := subHyphen nums ++ [' '] ++ street
        if acc.contains full then acc else acc ++ [full]
      else acc
  | _ => acc

/-- Document abstraction: the selected cell texts of one fetched page. -/
structure Doc where
  maininfoCells : List (List Char)
  contentRows : List (List Cell)
  tableRows : List (List (List Char))
deriving DecidableEq

/-- `BISScraper.extract_address_info`: classify the `maininfo` cells, then
collect secondary addresses and join them with `", "` when non-empty. -/
def extract_address_info (doc : Doc) : Rec :=
  let d := doc.maininfoCells.foldl maininfoStep []
  let secs := doc.contentRows.foldl secondaryStep []
  if secs.isEmpty then d
  else setField d ("Secondary Addresses".data) (List.intercalate (", ".data) secs)

/-- One row of the generic field sweep of `parse_property_profile`: rows
with at least two cells give `key = clean(cols[0])` (colon-stripped) and
`value = clean(cols[1])`, skipping empty keys/values, navigation chrome and
the explicitly excluded address/zoning cross-links. -/
def genericRow (d : Rec) (cols : List (List Char)) : Rec :=
  match cols with
  | c0 :: c1 :: _ =>
    let key := clean_text c0
    let value := clean_text c1
    if key = [] || value = [] || containsSub ("BIS Menu".data) key ||
        containsSub ("Privacy Policy".data) key then d
    else
      let key2 := key.filter (fun c => c ≠ ':')
      if containsSub ("Cross Street".data) key2 ||
          containsSub ("View Zoning".data) key2 ||
          containsSub ("View Challenge".data) key2 then d
      else setField d key2 value
  | _ => d

/-- `BISScraper.parse_property_profile`: the address extraction followed by
the generic two-column sweep over every table row. -/
def parse_property_profile (doc : Doc) : Rec :=
  doc.tableRows.foldl genericRow (extract_address_info doc)

/-- `BISScraper.get_property_profile`: `None` when the fetch failed (or
returned an empty body), otherwise the parsed record with the three BBL
components appended — so a successful fetch always yields a record with at
least the keys `Borough Code`, `Block` and `Lot`. -/
def get_property_profile (borough block lot : List Char)
    (fetched : Option Doc) : Option Rec :=
  match fetched with
  | none => none
  | some doc =>
    let d := parse_property_profile doc
    let d1 := setField d ("Borough Code".data) borough
    let d2 := setField d1 ("Block".data) block
    some (setField d2 ("Lot".data) lot)

/-- A document whose primary-information block has a single
jurisdiction+postal cell. -/
def cDocOneBorough : Doc :=
  ⟨["MANHATTAN 10001".data], [], []⟩

/-- A document whose primary-information block has two
jurisdiction+postal cells. -/
def cDocTwoBoroughs : Doc :=
  ⟨["MANHATTAN 10001".data, "BROOKLYN 11201".data], [], []⟩

/-- Claim C3, counterexample: on a document whose `maininfo` block holds
the two jurisdiction+postal cells `MANHATTAN 10001` and `BROOKLYN 11201`,
the first cell alone yields `Borough = MANHATTAN`, but with both cells the
Extractor reports `Borough = BROOKLYN` and `ZIP Code = 11201`: the second
matching cell overwrites the fields set by the first, refuting first-wins. -/
theorem extract_first_wins_counterexample :
    getField (extract_address_info cDocOneBorough) ("Borough".data) =
      some ("MANHATTAN".data) ∧
    getField (extract_address_info cDocTwoBoroughs) ("Borough".data) =
      some ("BROOKLYN".data) ∧
    getField (extract_address_info cDocTwoBoroughs) ("ZIP Code".data) =
      some ("11201".data) ∧
    some ("BROOKLYN".data) ≠ some ("MANHATTAN".data : List Char) := by
  refine ⟨?_, ?_, ?_, ?_⟩ <;> decide

/-- Claim C3, amended: the `maininfo` classification is last-wins, not
first-wins: every branch assigns with plain dict assignment, so when the
final cell of the block is a jurisdiction+postal cell (no `BIN#`, contains
a borough name, and its borough and 5-digit searches succeed), the
extracted `Borough` and `ZIP Code` fields are the ones computed from that
last qualifying cell, regardless of all earlier cells. -/
theorem extract_last_wins_amended (doc : Doc) (cs : List (List Char))
    (c b z : List Char)
    (hcells : doc.maininfoCells = cs ++ [c])
    (hbin : containsSub binMarker (clean_text c) = false)
    (hbor : boroughNames.any (fun x => containsSub x (clean_text c)) = true)
    (hfind : boroughSearch (clean_text c) = some b)
    (hzip : zipSearch (clean_text c) = some z) :
    getField (extract_address_info doc) ("Borough".data) = some b ∧
    getField (extract_address_info doc) ("ZIP Code".data) = some z := by
  have hstep : doc.maininfoCells.foldl maininfoStep [] =
      maininfoStep (cs.foldl maininfoStep []) c := by
    rw [hcells, List.foldl_append, List.foldl_cons, List.foldl_nil]
  have hm : maininfoStep (cs.foldl maininfoStep []) c =
      setField (setField (cs.foldl maininfoStep []) ("Borough".data) b)
        ("ZIP Code".data) z := by
    simp only [maininfoStep, hbin, hbor, hfind, hzip, Bool.false_eq_true,
      if_false, if_true]
  have hex : ∀ key : List Char, key ≠ "Secondary Addresses".data →
      getField (extract_address_info doc) key =
        getField (doc.maininfoCells.foldl maininfoStep []) key := by
    intro key hkey
    simp only [extract_address_info]
    split
    · rfl
    · exact getField_setField_other _ _ _ _ (Ne.symm hkey)
  constructor
  · rw [hex ("Borough".data) (by decide), hstep, hm]
    rw [getField_setField_other _ _ _ _ (by decide)]
    exact getField_setField_same _ _ _
  · rw [hex ("ZIP Code".data) (by decide), hstep, hm]
    exact getField_setField_same _ _ _

/-- Witness for the amended C3 at the concrete two-cell document. -/
theorem extract_last_wins_amended_witness :
    getField (extract_address_info cDocTwoBoroughs) ("Borough".data) =
      some ("BROOKLYN".data) ∧
    getField (extract_address_info cDocTwoBoroughs) ("ZIP Code".data) =
      some ("11201".data) :=
  extract_last_wins_amended cDocTwoBoroughs ["MANHATTAN 10001".data]
    ("BROOKLYN 11201".data) ("BROOKLYN".data) ("11201".data)
    (by decide) (by decide) (by decide) (by decide) (by decide)

/-! ## Checkpointed batch runner (`BISScraper.process_bbls_from_csv`,
`load_progress`, `save_progress`, `save_batch`)

The loop body is embedded as a small-step function: for one input
identifier (with the fetch outcome the network would produce for it),
`iterStates` returns the list of all intermediate states the run passes
through — after the fetch, after the buffer append (`current_batch.append`
together with `processed_count += 1`), after the progress-log append
(`save_progress`, flush-on-write), and after a batch flush (`save_batch`
followed by `current_batch = []`).  A failure can interrupt the run at any
of these points, so run-wide invariants are stated over the full trace.
`save_batch` catches its own exceptions: its column selection
`batch_df[columns_to_keep]` raises `KeyError` when an output column is
missing from every record of the batch, in which case nothing is written
and the batch is silently dropped — the flush is therefore modelled as a
conditional store append.  The buffered records are paired with the
identifier they were produced for. -/

/-- `BISScraper.load_progress`: a missing progress file
(`os.path.exists` false, modelled as `none`) yields the empty set without
raising; otherwise every line is stripped and added to the set (modelled as
an insertion-ordered duplicate-free list). -/
def load_progress (file : Option (List (List Char))) : List (List Char) :=
  match file with
  | none => []
  | some lines =>
    lines.foldl (fun acc line =>
      if acc.contains (pyStrip line) then acc else acc ++ [pyStrip line]) []

/-- `str(bbl).zfill(10)` as applied to each raw identifier. -/
def zfill10 (l : List Char) : List Char := zfill 10 l

/-- State of one `process_bbls_from_csv` run: the in-memory buffer, the
progress log, the flushed output store, the identifiers for which the
Transport has been invoked, and the success/error counters. -/
structure RunState where
  buffer : List (List Char × Rec)
  log : List (List Char)
  store : List (List Char × Rec)
  fetches : List (List Char)
  processed : Nat
  errors : Nat
deriving DecidableEq

/-- The state at the start of a run. -/
def initState : RunState := ⟨[], [], [], [], 0, 0⟩

/-- The output columns `save_batch` selects besides the `BBL` column it
constructs itself (`columns_to_keep`, scraper.py line 228). -/
def outputColumns : List (List Char) :=
  ["Primary Address".data, "Secondary Addresses".data, "Borough".data,
    "ZIP Code".data, "BIN".data]

/-- Whether a `save_batch` call actually writes.  `pd.DataFrame(batch)`
has a column for a key iff some record of the batch has that key; the
three BBL-component keys are always present and `save_batch` constructs
`BBL` itself, so `batch_df[columns_to_keep]` raises `KeyError` exactly
when one of the five remaining output columns is missing from every
record of the batch.  The surrounding `try/except` catches it, nothing is
written, and the caller discards the buffer anyway. -/
def save_batch_writes (batch : List (List Char × Rec)) : Bool :=
  outputColumns.all (fun col => batch.any (fun p => (getField p.2 col).isSome))

/-- One `save_batch` call followed by clearing the buffer: the buffered
records reach the output store only when the column selection succeeds;
on the swallowed `KeyError` the batch is dropped, and either way the
buffer is cleared. -/
def flushState (s : RunState) : RunState :=
  if save_batch_writes s.buffer then
    { s with store := s.store ++ s.buffer, buffer := [] }
  else { s with buffer := [] }

/-- All intermediate states of one loop iteration, in execution order.
An identifier in the skip-set is skipped without any fetch; a `parse_bbl`
failure is caught and counted as an error before any fetch; otherwise the
fetch is recorded, and a truthy result (`if property_data:`) appends to the
buffer, increments the success counter, appends to the progress log, and
calls `save_batch` (which may silently drop the batch) when the buffer has
reached `batch_size`; a falsy result (`None` or an empty record)
increments the error counter. -/
def iterStates (bsize : Nat) (skip : List (List Char)) (s : RunState)
    (inp : List Char × Option Doc) : List RunState :=
  if skip.contains (zfill10 inp.1) then [s]
  else
    match parse_bbl (zfill10 inp.1) with
    | Except.error _ => [{ s with errors := s.errors + 1 }]
    | Except.ok parts =>
      let s0 := { s with fetches := s.fetches ++ [zfill10 inp.1] }
      match get_property_profile parts.borough parts.block parts.lot inp.2 with
      | some d =>
        if d.isEmpty then [s0, { s0 with errors := s0.errors + 1 }]
        else
          let s1 :=
            { s0 with
                buffer := s0.buffer ++ [(zfill10 inp.1, d)]
                processed := s0.processed + 1 }
          let s2 := { s1 with log := s1.log ++ [zfill10 inp.1] }
          if bsize ≤ s2.buffer.length then [s0, s1, s2, flushState s2]
          else [s0, s1, s2]
      | none => [s0, { s0 with errors := s0.errors + 1 }]

/-- All intermediate states of the whole loop. -/
def runStatesGo (bsize : Nat) (skip : List (List Char)) :
    RunState → List (List Char × Option Doc) → List RunState
  | _, [] => []
  | s, inp :: rest =>
    iterStates bsize skip s inp ++
      runStatesGo bsize skip ((iterStates bsize skip s inp).getLastD s) rest

/-- The state after the loop (before the final flush). -/
def runLast (bsize : Nat) (skip : List (List Char)) :
    RunState → List (List Char × Option Doc) → RunState
  | s, [] => s
  | s, inp :: rest =>
    runLast bsize skip ((iterStates bsize skip s inp).getLastD s) rest

/-- Every state a run passes through, from the initial state to the final
flush: the points a failure could interrupt at. -/
def runTrace (bsize : Nat) (skip : List (List Char))
    (inputs : List (List Char × Option Doc)) : List RunState :=
  if (runLast bsize skip initState inputs).buffer.isEmpty then
    initState :: runStatesGo bsize skip initState inputs
  else
    (initState :: runStatesGo bsize skip initState inputs) ++
      [flushState (runLast bsize skip initState inputs)]

/-- The state a completed run ends in. -/
def runFinal (bsize : Nat) (skip : List (List Char))
    (inputs : List (List Char × Option Doc)) : RunState :=
  if (runLast bsize skip initState inputs).buffer.isEmpty then
    runLast bsize skip initState inputs
  else flushState (runLast bsize skip initState inputs)

/-- A document with no tables, rows or cells at all: the parse finds no
extractable record. -/
def cEmptyDoc : Doc := ⟨[], [], []⟩

/-- The record `get_property_profile` produces for borough 0, block 01234,
lot 0001 on a document with no extractable content. -/
def cProfileRec : Rec :=
  [("Borough Code".data, "0".data), ("Block".data, "01234".data),
    ("Lot".data, "0001".data)]

/-- A raw progress-file line for identifier 0012340001, with surrounding
whitespace that `load_progress` strips. -/
def cLineBBL1 : List Char := " 0012340001\n".data

/-- A document whose two-column rows provide every output column, so a
batch of its records passes `save_batch`'s column selection. -/
def cFullDoc : Doc :=
  ⟨[], [],
    [["Primary Address:".data, "100 MAIN ST".data],
      ["Secondary Addresses:".data, "102 MAIN ST".data],
      ["Borough:".data, "MANHATTAN".data],
      ["ZIP Code:".data, "10001".data],
      ["BIN:".data, "1000000".data]]⟩

/-- The record `get_property_profile` produces for borough 0, block 01234,
lot 0001 on `cFullDoc`. -/
def cFullRec : Rec :=
  [("Primary Address".data, "100 MAIN ST".data),
    ("Secondary Addresses".data, "102 MAIN ST".data),
    ("Borough".data, "MANHATTAN".data),
    ("ZIP Code".data, "10001".data),
    ("BIN".data, "1000000".data),
    ("Borough Code".data, "0".data),
    ("Block".data, "01234".data),
    ("Lot".data, "0001".data)]

/-- Generic trace induction: if `P` holds initially, one iteration started
from a `P`-and-`B` state keeps `P` at every intermediate state and
re-establishes `P ∧ B` at its last state, and a flush from a `P ∧ B` state
keeps `P`, then `P` holds at every state of the run trace. -/
theorem runTrace_invariant (P B : RunState → Prop) (bsize : Nat)
    (skip : List (List Char)) (inputs : List (List Char × Option Doc))
    (hinit : P initState ∧ B initState)
    (hall : ∀ s inp, P s → B s → ∀ t ∈ iterStates bsize skip s inp, P t)
    (hlast : ∀ s inp, P s → B s →
      P ((iterStates bsize skip s inp).getLastD s) ∧
      B ((iterStates bsize skip s inp).getLastD s))
    (hflush : ∀ s, P s → B s → P (flushState s)) :
    ∀ t ∈ runTrace bsize skip inputs, P t := by
  have hgo : ∀ l s, P s → B s → ∀ t ∈ runStatesGo bsize skip s l, P t := by
    intro l
    induction l with
    | nil => intro s _ _ t ht; simp [runStatesGo] at ht
    | cons inp rest ih =>
      intro s hp hb t ht
      rw [runStatesGo, List.mem_append] at ht
      rcases ht with ht | ht
      · exact hall s inp hp hb t ht
      · exact ih _ (hlast s inp hp hb).1 (hlast s inp hp hb).2 t ht
  have hrl : ∀ l s, P s → B s →
      P (runLast bsize skip s l) ∧ B (runLast bsize skip s l) := by
    intro l
    induction l with
    | nil => intro s hp hb; exact ⟨hp, hb⟩
    | cons inp rest ih =>
      intro s hp hb
      exact ih _ (hlast s inp hp hb).1 (hlast s inp hp hb).2
  intro t ht
  rw [runTrace] at ht
  split at ht
  · rcases List.mem_cons.mp ht with rfl | ht
    · exact hinit.1
    · exact hgo inputs initState hinit.1 hinit.2 t ht
  · rw [List.mem_append] at ht
    rcases ht with ht | ht
    · rcases List.mem_cons.mp ht with rfl | ht
      · exact hinit.1
      · exact hgo inputs initState hinit.1 hinit.2 t ht
    · have hfin := hrl inputs initState hinit.1 hinit.2
      rw [List.mem_singleton] at ht
      subst ht
      exact hflush _ hfin.1 hfin.2

/-- The output-store-is-logged invariant, and the buffer-side companion
needed to re-establish it across a flush. -/
def StoreLogged (s : RunState) : Prop := ∀ p ∈ s.store, p.1 ∈ s.log

/-- Companion invariant: at iteration boundaries, every buffered record's
identifier is already in the progress log. -/
def BufferLogged (s : RunState) : Prop := ∀ p ∈ s.buffer, p.1 ∈ s.log

/-- Whether or not `save_batch` writes, a flush from a state whose store
and buffer are both logged leaves the store logged. -/
theorem flushState_storeLogged (s : RunState) (hP : StoreLogged s)
    (hB : BufferLogged s) : StoreLogged (flushState s) := by
  simp only [flushState]
  split
  · intro p hp
    rcases List.mem_append.mp hp with h | h
    · exact hP p h
    · exact hB p h
  · exact hP

/-- A flush always leaves the buffer empty. -/
theorem flushState_bufferLogged (s : RunState) :
    BufferLogged (flushState s) := by
  simp only [flushState]
  split
  · intro p hp
    exact absurd hp (List.not_mem_nil p)
  · intro p hp
    exact absurd hp (List.not_mem_nil p)

/-- A flush never changes the fetched-identifier list. -/
theorem flushState_fetches (s : RunState) :
    (flushState s).fetches = s.fetches := by
  simp only [flushState]
  split
  · rfl
  · rfl

theorem iterStates_storeLogged (bsize : Nat) (skip : List (List Char))
    (s : RunState) (inp : List Char × Option Doc)
    (hP : StoreLogged s) (hB : BufferLogged s) :
    (∀ t ∈ iterStates bsize skip s inp, StoreLogged t) ∧
    StoreLogged ((iterStates bsize skip s inp).getLastD s) ∧
    BufferLogged ((iterStates bsize skip s inp).getLastD s) := by
  simp only [iterStates]
  split
  · exact ⟨fun t ht => by
      rw [List.mem_singleton] at ht
      subst ht
      exact hP, hP, hB⟩
  · split
    · exact ⟨fun t ht => by
        rw [List.mem_singleton] at ht
        subst ht
        exact hP, hP, hB⟩
    · split
      · split
        · refine ⟨fun t ht => ?_, hP, hB⟩
          simp only [List.mem_cons, List.not_mem_nil, or_false] at ht
          rcases ht with rfl | rfl
          · exact hP
          · exact hP
        · split
          · refine ⟨fun t ht => ?_, ?_, ?_⟩
            · simp only [List.mem_cons, List.not_mem_nil, or_false] at ht
              rcases ht with rfl | rfl | rfl | rfl
              · exact hP
              · exact hP
              · exact fun p hp => List.mem_append_left _ (hP p hp)
              · refine flushState_storeLogged _
                  (fun p hp => List.mem_append_left _ (hP p hp)) ?_
                intro p hp
                rcases List.mem_append.mp hp with h | h
                · exact List.mem_append_left _ (hB p h)
                · rw [List.mem_singleton] at h
                  subst h
                  exact List.mem_append_right _ (List.mem_singleton_self _)
            · refine flushState_storeLogged _
                (fun p hp => List.mem_append_left _ (hP p hp)) ?_
              intro p hp
              rcases List.mem_append.mp hp with h | h
              · exact List.mem_append_left _ (hB p h)
              · rw [List.mem_singleton] at h
                subst h
                exact List.mem_append_right _ (List.mem_singleton_self _)
            · exact flushState_bufferLogged _
          · refine ⟨fun t ht => ?_, ?_, ?_⟩
            · simp only [List.mem_cons, List.not_mem_nil, or_false] at ht
              rcases ht with rfl | rfl | rfl
              · exact hP
              · exact hP
              · exact fun p hp => List.mem_append_left _ (hP p hp)
            · exact fun p hp => List.mem_append_left _ (hP p hp)
            · intro p hp
              rcases List.mem_append.mp hp with h | h
              · exact List.mem_append_left _ (hB p h)
              · rw [List.mem_singleton] at h
                subst h
                exact List.mem_append_right _ (List.mem_singleton_self _)
      · refine ⟨fun t ht => ?_, hP, hB⟩
        simp only [List.mem_cons, List.not_mem_nil, or_false] at ht
        rcases ht with rfl | rfl
        · exact hP
        · exact hP

theorem getLastD_mem_of_ne_nil : ∀ (l : List RunState) (d : RunState),
    l ≠ [] → l.getLastD d ∈ l
  | [], _, h => absurd rfl h
  | [a], d, _ => by simp [List.getLastD_cons]
  | a :: b :: l, d, _ => by
    rw [List.getLastD_cons]
    exact List.mem_cons_of_mem a (getLastD_mem_of_ne_nil (b :: l) a (by simp))

theorem iterStates_ne_nil (bsize : Nat) (skip : List (List Char))
    (s : RunState) (inp : List Char × Option Doc) :
    iterStates bsize skip s inp ≠ [] := by
  simp only [iterStates]
  split
  · simp
  · split
    · simp
    · split
      · split
        · simp
        · split
          · simp
          · simp
      · simp

/-- Claim C1, counterexample: running over the single identifier 0012340001
with a successful fetch and the default batch size 100, the run reaches a
point (after `save_progress`, before any `save_batch`) where the identifier
is in the progress log while the output store is still empty — a failure
there marks the identifier done without its data present, refuting the
claimed invariant.  On this input the violation even survives normal
completion: the record holds only the three BBL-component fields, so the
final `save_batch` hits the swallowed `KeyError` at its column selection
and the run ends with the identifier logged and the store still empty. -/
theorem progress_log_invariant_counterexample :
    (∃ t ∈ runTrace 100 [] [(cBBL1, some cEmptyDoc)],
      cBBL1 ∈ t.log ∧ t.store = []) ∧
    cBBL1 ∈ (runFinal 100 [] [(cBBL1, some cEmptyDoc)]).log ∧
    (runFinal 100 [] [(cBBL1, some cEmptyDoc)]).store = [] := by decide

/-- Claim C1, amended: the write order is the reverse of the claimed one:
the progress-log entry is written immediately on success while the output
flush lags until the batch boundary (or the final flush) and can fail
silently (`save_batch` swallows its exceptions: a batch whose records lack
one of the output columns raises `KeyError` at `batch_df[columns_to_keep]`
and is dropped while its identifiers stay logged), so an identifier can be
logged with its record never stored.  What does hold at every point of a
run, including failure points, is the converse invariant: every record in
the output store has its identifier already in the progress log. -/
theorem store_entries_logged (bsize : Nat) (skip : List (List Char))
    (inputs : List (List Char × Option Doc)) :
    ∀ t ∈ runTrace bsize skip inputs, ∀ p ∈ t.store, p.1 ∈ t.log :=
  runTrace_invariant StoreLogged BufferLogged bsize skip inputs
    ⟨fun p hp => absurd hp (List.not_mem_nil p),
      fun p hp => absurd hp (List.not_mem_nil p)⟩
    (fun s inp hp hb => (iterStates_storeLogged bsize skip s inp hp hb).1)
    (fun s inp hp hb => ⟨(iterStates_storeLogged bsize skip s inp hp hb).2.1,
      (iterStates_storeLogged bsize skip s inp hp hb).2.2⟩)
    (fun s hp hb => flushState_storeLogged s hp hb)

/-- Witness for the amended C1: in a completed run whose record carries
every output column (so `save_batch` succeeds) with batch size 1, the
flushed record's identifier is in the progress log. -/
theorem store_entries_logged_witness :
    cBBL1 ∈ (runFinal 1 [] [(cBBL1, some cFullDoc)]).log :=
  store_entries_logged 1 [] [(cBBL1, some cFullDoc)]
    (runFinal 1 [] [(cBBL1, some cFullDoc)]) (by decide)
    (cBBL1, cFullRec) (by decide)

/-- Identifiers passed to the Transport are never in the skip-set. -/
def FetchesOffSkip (skip : List (List Char)) (s : RunState) : Prop :=
  ∀ x ∈ s.fetches, skip.contains x = false

theorem iterStates_fetchesOffSkip (bsize : Nat) (skip : List (List Char))
    (s : RunState) (inp : List Char × Option Doc)
    (h : FetchesOffSkip skip s) :
    ∀ t ∈ iterStates bsize skip s inp, FetchesOffSkip skip t := by
  simp only [iterStates]
  split
  · intro t ht
    rw [List.mem_singleton] at ht
    subst ht
    exact h
  · rename_i hs
    have hns : skip.contains (zfill10 inp.1) = false := by
      cases hc : skip.contains (zfill10 inp.1)
      · rfl
      · exact absurd hc hs
    have hext : FetchesOffSkip skip
        { s with fetches := s.fetches ++ [zfill10 inp.1] } := by
      intro x hx
      rcases List.mem_append.mp hx with h2 | h2
      · exact h x h2
      · rw [List.mem_singleton] at h2
        subst h2
        exact hns
    split
    · intro t ht
      rw [List.mem_singleton] at ht
      subst ht
      exact h
    · split
      · split
        · intro t ht
          simp only [List.mem_cons, List.not_mem_nil, or_false] at ht
          rcases ht with rfl | rfl
          · exact hext
          · exact hext
        · split
          · intro t ht
            simp only [List.mem_cons, List.not_mem_nil, or_false] at ht
            rcases ht with rfl | rfl | rfl | rfl
            · exact hext
            · exact hext
            · exact hext
            · intro x hx
              rw [flushState_fetches] at hx
              exact hext x hx
          · intro t ht
            simp only [List.mem_cons, List.not_mem_nil, or_false] at ht
            rcases ht with rfl | rfl | rfl
            · exact hext
            · exact hext
            · exact hext
      · intro t ht
        simp only [List.mem_cons, List.not_mem_nil, or_false] at ht
        rcases ht with rfl | rfl
        · exact hext
        · exact hext

/-- Claim C2: at every point of every run, an identifier in the startup
skip-set has not been fetched; and for the concrete resume scenario — a
progress file pre-seeding 0012340001 and a source holding 0012340001 and
0012340002 — the Transport is invoked exactly once, only for the second
identifier. -/
theorem resume_idempotence (bsize : Nat) (skip : List (List Char))
    (inputs : List (List Char × Option Doc)) :
    (∀ t ∈ runTrace bsize skip inputs,
      ∀ i, skip.contains i = true → i ∉ t.fetches) ∧
    (runFinal 100 (load_progress (some [cLineBBL1]))
        [(cBBL1, none), (cBBL2, some cEmptyDoc)]).fetches = [cBBL2] := by
  constructor
  · have hinv : ∀ t ∈ runTrace bsize skip inputs, FetchesOffSkip skip t :=
      runTrace_invariant (FetchesOffSkip skip) (fun _ => True) bsize skip inputs
        ⟨fun x hx => absurd hx (List.not_mem_nil x), trivial⟩
        (fun s inp hp _ => iterStates_fetchesOffSkip bsize skip s inp hp)
        (fun s inp hp _ =>
          ⟨iterStates_fetchesOffSkip bsize skip s inp hp _
            (getLastD_mem_of_ne_nil _ s (iterStates_ne_nil bsize skip s inp)),
            trivial⟩)
        (fun s hp _ x hx => hp x (by rwa [flushState_fetches] at hx))
    intro t ht i hi hmem
    have := hinv t ht i hmem
    rw [hi] at this
    simp at this
  · decide

/-- Witness for C2: the pre-seeded identifier is not among the fetched
identifiers of the concrete resume run. -/
theorem resume_idempotence_witness :
    cBBL1 ∉ (runFinal 100 (load_progress (some [cLineBBL1]))
      [(cBBL1, none), (cBBL2, some cEmptyDoc)]).fetches :=
  (resume_idempotence 100 (load_progress (some [cLineBBL1]))
      [(cBBL1, none), (cBBL2, some cEmptyDoc)]).1
    (runFinal 100 (load_progress (some [cLineBBL1]))
      [(cBBL1, none), (cBBL2, some cEmptyDoc)]) (by decide)
    cBBL1 (by decide)

theorem setField_isEmpty_false (d : Rec) (k v : List Char) :
    (setField d k v).isEmpty = false := by
  cases d with
  | nil => rfl
  | cons p rest =>
    obtain ⟨k', v'⟩ := p
    by_cases h : k' = k <;> simp [setField, h]

/-- Claim C7, counterexample: for a fetched document with no extractable
content the parse yields the empty record, yet `get_property_profile`
returns it with the three BBL-component fields appended, so the Runner's
`if property_data:` test sees a truthy dict: the identifier is counted as a
success (not an error) and appended to the progress log, refuting the
claim that an empty extraction is treated as "not found". -/
theorem empty_result_counterexample :
    parse_property_profile cEmptyDoc = [] ∧
    get_property_profile ("0".data) ("01234".data) ("0001".data)
      (some cEmptyDoc) = some cProfileRec ∧
    cProfileRec ≠ [] ∧
    (runFinal 100 [] [(cBBL1, some cEmptyDoc)]).processed = 1 ∧
    (runFinal 100 [] [(cBBL1, some cEmptyDoc)]).errors = 0 ∧
    (runFinal 100 [] [(cBBL1, some cEmptyDoc)]).log = [cBBL1] := by
  refine ⟨?_, ?_, ?_, ?_, ?_, ?_⟩ <;> decide

/-- Claim C7, amended: a successful fetch is always counted as a success,
even when the document yields no extractable record, because
`get_property_profile` appends `Borough Code`, `Block` and `Lot` to the
parsed record, making it non-empty; the error counter is incremented, and
the progress-log append skipped, exactly when the fetch itself returns the
`None` sentinel. -/
theorem empty_result_amended (bsize : Nat) (skip : List (List Char))
    (s : RunState) (i : List Char) (doc : Doc)
    (hns : skip.contains (zfill10 i) = false)
    (hlen : (zfill10 i).length = 10) :
    ((iterStates bsize skip s (i, some doc)).getLastD s).processed
        = s.processed + 1 ∧
    ((iterStates bsize skip s (i, some doc)).getLastD s).errors = s.errors ∧
    ((iterStates bsize skip s (i, some doc)).getLastD s).log
        = s.log ++ [zfill10 i] ∧
    ((iterStates bsize skip s (i, none)).getLastD s).errors = s.errors + 1 ∧
    ((iterStates bsize skip s (i, none)).getLastD s).log = s.log := by
  have hparse : parse_bbl (zfill10 i) = Except.ok
      ⟨(zfill10 i).take 1, ((zfill10 i).drop 1).take 5,
        ((zfill10 i).drop 6).take 4⟩ := by
    simp [parse_bbl, hlen]
  refine ⟨?_, ?_, ?_, ?_, ?_⟩ <;>
    simp only [iterStates, hns, Bool.false_eq_true, if_false, hparse,
      get_property_profile, setField_isEmpty_false, flushState] <;>
    try split
  all_goals try split
  all_goals rfl

/-- Witness for the amended C7 at a concrete iteration from the initial
state with a successful fetch of a contentless document. -/
theorem empty_result_amended_witness :
    ((iterStates 100 [] initState (cBBL1, some cEmptyDoc)).getLastD
        initState).processed = initState.processed + 1 ∧
    ((iterStates 100 [] initState (cBBL1, none)).getLastD
        initState).errors = initState.errors + 1 :=
  ⟨(empty_result_amended 100 [] initState cBBL1 cEmptyDoc
      (by decide) (by decide)).1,
    (empty_result_amended 100 [] initState cBBL1 cEmptyDoc
      (by decide) (by decide)).2.2.2.1⟩

/-! ## Final summary (`process_bbls_from_csv`, lines 208–216) -/

/-- The message of Python's division-by-zero exception. -/
def zeroDivMsg : String := "ZeroDivisionError"

/-- Python `/` on floats of these magnitudes: raises on a zero
denominator. -/
def pyDiv (a b : ℚ) : Except String ℚ :=
  if b = 0 then Except.error zeroDivMsg else Except.ok (a / b)

/-- The final-summary success rate of `process_bbls_from_csv`:
`(processed_count / (processed_count + error_count)) * 100`, with no guard
on the denominator. -/
def success_rate (processed errors : Nat) : Except String ℚ :=
  (pyDiv (processed : ℚ) ((processed : ℚ) + (errors : ℚ))).map
    (fun r => r * 100)

/-- Claim C5 (code bug): a run that ends with zero successes and zero
errors — for example one whose every identifier is already in the progress
file — reaches the final summary with `processed_count = 0` and
`error_count = 0`, and the unguarded ratio raises `ZeroDivisionError`
(swallowed by the run-level `except`, so no ratio is ever reported),
contradicting the claimed division-by-zero guard. -/
theorem success_rate_div_by_zero :
    (runLast 100 (load_progress (some [cLineBBL1])) initState
        [(cBBL1, none)]).processed = 0 ∧
    (runLast 100 (load_progress (some [cLineBBL1])) initState
        [(cBBL1, none)]).errors = 0 ∧
    success_rate 0 0 = Except.error zeroDivMsg := by
  refine ⟨by decide, by decide, ?_⟩
  simp [success_rate, pyDiv, Except.map]

/-- Claim C10: a missing progress file yields the empty skip-set without
raising, and an existing file contributes exactly the whitespace-stripped
content of its lines. -/
theorem load_progress_missing_and_strips :
    load_progress none = [] ∧
    (∀ lines l, l ∈ lines → pyStrip l ∈ load_progress (some lines)) ∧
    (∀ lines x, x ∈ load_progress (some lines) →
      ∃ l ∈ lines, x = pyStrip l) := by
  have hmono : ∀ (lines acc : List (List Char)) (x : List Char), x ∈ acc →
      x ∈ lines.foldl (fun acc line =>
        if acc.contains (pyStrip line) then acc
        else acc ++ [pyStrip line]) acc := by
    intro lines
    induction lines with
    | nil => intro acc x hx; simpa using hx
    | cons line rest ih =>
      intro acc x hx
      rw [List.foldl_cons]
      apply ih
      split
      · exact hx
      · exact List.mem_append_left _ hx
  have hmem : ∀ (lines acc : List (List Char)) (l : List Char), l ∈ lines →
      pyStrip l ∈ lines.foldl (fun acc line =>
        if acc.contains (pyStrip line) then acc
        else acc ++ [pyStrip line]) acc := by
    intro lines
    induction lines with
    | nil => intro acc l hl; simp at hl
    | cons line rest ih =>
      intro acc l hl
      rw [List.foldl_cons]
      rcases List.mem_cons.mp hl with rfl | hl
      · apply hmono
        split
        · rename_i hc
          simpa using hc
        · exact List.mem_append_right _ (List.mem_singleton_self _)
      · exact ih _ l hl
  have hsrc : ∀ (lines acc : List (List Char)) (x : List Char),
      x ∈ lines.foldl (fun acc line =>
        if acc.contains (pyStrip line) then acc
        else acc ++ [pyStrip line]) acc →
      x ∈ acc ∨ ∃ l ∈ lines, x = pyStrip l := by
    intro lines
    induction lines with
    | nil => intro acc x hx; exact Or.inl (by simpa using hx)
    | cons line rest ih =>
      intro acc x hx
      rw [List.foldl_cons] at hx
      rcases ih _ x hx with hx2 | ⟨l, hl, rfl⟩
      · revert hx2
        split
        · exact fun hx2 => Or.inl hx2
        · intro hx2
          rcases List.mem_append.mp hx2 with h | h
          · exact Or.inl h
          · rw [List.mem_singleton] at h
            exact Or.inr ⟨line, List.mem_cons_self line rest, h⟩
      · exact Or.inr ⟨l, List.mem_cons_of_mem line hl, rfl⟩
  refine ⟨rfl, ?_, ?_⟩
  · intro lines l hl
    exact hmem lines [] l hl
  · intro lines x hx
    rcases hsrc lines [] x hx with h | h
    · exact absurd h (List.not_mem_nil x)
    · exact h

/-- Witness for C10: the stripped form of a progress-file line with
surrounding whitespace is in the loaded skip-set. -/
theorem load_progress_witness :
    pyStrip cLineBBL1 ∈ load_progress (some [cLineBBL1]) :=
  load_progress_missing_and_strips.2.1 [cLineBBL1] cLineBBL1
    (List.mem_singleton_self cLineBBL1)

/-! ## Batch orchestrator (`process_batches.py`) -/

/-- The methods defined on `BISScraper` in `scraper.py`. -/
def bisScraperMethods : List String :=
  ["__init__", "_create_session", "_rotate_session", "_calculate_delay",
    "_wait_between_requests", "load_progress", "save_progress",
    "estimate_completion_time", "process_bbls_from_csv", "save_batch",
    "is_queue_page", "fetch_page", "clean_text", "extract_address_info",
    "parse_property_profile", "get_property_profile", "save_data",
    "parse_bbl"]

/-- The attribute `process_batches` invokes on the scraper per segment
(`scraper.process_csv(...)`, line 129 of `process_batches.py`). -/
def orchestratorCallName : String := "process_csv"

/-- Message of Python's missing-attribute exception. -/
def attributeErrorMsg : String := "AttributeError"

/-- Observable events of the per-segment retry loop of `process_batches`. -/
inductive OrchEvent where
  | reinitScraper
  | sleepSecs (n : Nat)
  | runnerInvoked
  | attributeError
  | segmentAbandoned
deriving DecidableEq

/-- Invoking `scraper.process_csv(...)`: Python raises `AttributeError`
before any segment processing happens when the attribute does not exist
on the object. -/
def callSegmentRunner : Except String Unit :=
  if bisScraperMethods.contains orchestratorCallName then Except.ok ()
  else Except.error attributeErrorMsg

/-- The `while retry_count < max_retries` loop of `process_batches` for
one segment: on entry with `retry_count > 0` it reinitialises the scraper
and sleeps 300 s, then calls `scraper.process_csv`; an exception increments
the counter, and sleeps another 300 s when attempts remain, else logs the
failure and falls out of the loop (the orchestration then proceeds to the
next segment). -/
def retrySegmentGo : Nat → Nat → Nat → List OrchEvent
  | 0, _, _ => []
  | fuel + 1, rc, mr =>
    if mr ≤ rc then []
    else
      (if 0 < rc then [OrchEvent.reinitScraper, OrchEvent.sleepSecs 300]
        else []) ++
      match callSegmentRunner with
      | Except.ok _ => [OrchEvent.runnerInvoked]
      | Except.error _ =>
        OrchEvent.attributeError ::
          (if rc + 1 < mr then
            OrchEvent.sleepSecs 300 :: retrySegmentGo fuel (rc + 1) mr
          else [OrchEvent.segmentAbandoned])

/-- One segment's retry protocol at the source constants
(`retry_count = 0`, `max_retries = 3`). -/
def retrySegment : List OrchEvent := retrySegmentGo 3 0 3

/-- Claim C4 (code bug): the per-segment call target `process_csv` is not
a method of `BISScraper` (its runner is `process_bbls_from_csv`), so every
attempt raises `AttributeError`: the loop makes its 3 attempts with the
reinitialise-and-cool-down protocol between them, never invokes the
Runner, and abandons the segment — the claimed invocation of the Runner of
section 4.4 never happens. -/
theorem orchestrator_missing_method :
    bisScraperMethods.contains orchestratorCallName = false ∧
    retrySegment =
      [OrchEvent.attributeError, OrchEvent.sleepSecs 300,
        OrchEvent.reinitScraper, OrchEvent.sleepSecs 300,
        OrchEvent.attributeError, OrchEvent.sleepSecs 300,
        OrchEvent.reinitScraper, OrchEvent.sleepSecs 300,
        OrchEvent.attributeError, OrchEvent.segmentAbandoned] ∧
    OrchEvent.runnerInvoked ∉ retrySegment := by
  refine ⟨?_, ?_, ?_⟩ <;> decide
